import Mathlib

/-!
Verification of the pymw MediaWiki API client (`src/pymw/_api.py`) against its
natural-language specification.

The development shallowly embeds the request/response orchestration core:

* JSON bodies and request parameter sets are association lists with Python
  `dict` semantics (`Dict`): insertion order preserved, update-in-place for
  existing keys, `del` of a missing key raises `KeyError`.
* The network is an oracle: a script of post outcomes (`PostOutcome`)
  consumed one per HTTP POST, mirroring how the repository's own test suite
  patches `API.post` with a list of canned responses.
* Generators are embedded as functions returning the list of yielded values;
  the while-loop of `post_and_continue` is driven by a fuel parameter, so the
  embedding is total while the source loop may in principle run forever.
* Python exceptions are an explicit error type (`Err`); `KeyError`,
  `AssertionError`, `TypeError`, and the library's own `LoginError` are kept
  distinct because the spec distinguishes them.
-/

/-- JSON values, as produced by `resp.json()` with `formatversion=2`. -/
inductive Value where
  | str (s : String)
  | nat (n : Nat)
  | bool (b : Bool)
  | list (xs : List Value)
  | obj (fields : List (String × Value))

/-- A Python `dict` with string keys (request parameter sets and JSON
objects), represented as an insertion-ordered association list. The
well-formedness invariant of a Python dict — no duplicate keys — holds for
every dict the embedded code constructs from a well-formed one. -/
abbrev Dict := List (String × Value)

/-- Lookup, `d.get(k)` / `d[k]` (first binding). -/
def dictGet : Dict → String → Option Value
  | [], _ => none
  | kv :: d, k => if kv.1 == k then some kv.2 else dictGet d k

/-- Membership, `k in d`. -/
def dictHasKey : Dict → String → Bool
  | [], _ => false
  | kv :: d, k => kv.1 == k || dictHasKey d k

/-- Assignment `d[k] = v`: update the binding in place when `k` is present (a
well-formed dict binds it at most once), else append. -/
def dictInsert : Dict → String → Value → Dict
  | [], k, v => [(k, v)]
  | kv :: d, k, v => if kv.1 == k then (k, v) :: d else kv :: dictInsert d k v

/-- Removal of every binding of `k` (a well-formed dict has at most one). -/
def dictErase : Dict → String → Dict
  | [], _ => []
  | kv :: d, k => if kv.1 == k then dictErase d k else kv :: dictErase d k

/-- Merge `d |= e`: fold `e` into `d`, left-to-right. -/
def dictMerge (d e : Dict) : Dict :=
  e.foldl (fun a kv => dictInsert a kv.1 kv.2) d

/-- Keys of the dict, `d.keys()`. -/
def dictKeys (d : Dict) : List String :=
  d.map (fun kv => kv.1)

/-- Python exceptions and embedding-level failures. -/
inductive Err where
  /-- A missing-key `dict` access (`d[k]`, `del d[k]`). -/
  | keyError
  /-- A failed `assert`. -/
  | assertionError
  /-- A Python `TypeError` (operating on a value of the wrong shape). -/
  | typeError
  /-- `range()` with step 0. -/
  | valueError
  /-- `raise NotImplementedError` (the `rawcontinue` guard). -/
  | notImplementedError
  /-- `raise LoginError(pformat(json))`, carrying the full response. -/
  | loginError (resp : Dict)
  /-- The fuel of the embedding ran out (the source loop did not finish). -/
  | outOfFuel
  /-- The response script of the network oracle ran out. -/
  | scriptEnd

/-- Deletion `del d[k]`: removes the binding, raising `KeyError` when absent. -/
def pyDel (d : Dict) (k : String) : Except Err Dict :=
  if dictHasKey d k then .ok (dictErase d k) else .error .keyError

/-- Iterated deletion, `for k in ks: del d[k]`. -/
def pyDelKeys (d : Dict) : List String → Except Err Dict
  | [] => .ok d
  | k :: ks =>
    match pyDel d k with
    | .error e => .error e
    | .ok d1 => pyDelKeys d1 ks

/-- One outcome of `API.post`: a decoded JSON body, or a raised
`TooManyValuesError` carrying the server error object. The network is an
oracle: a script of outcomes consumed one per POST, exactly as the
repository's test suite patches `API.post` with a list of responses. -/
inductive PostOutcome where
  | ok (json : Dict)
  | tooManyValues (error : Dict)

/-- Observable result of a finished `post_and_continue` run: the JSON bodies
yielded, the request parameter set at the moment of each POST (`trace`), the
final (in-place mutated) parameter set, and the unconsumed script. -/
structure PacOut where
  yields : List Dict
  trace : List Dict
  data : Dict
  script : List PostOutcome

/-- Python `s.split(sep)` for a one-character separator: split at every
occurrence, never dropping empty segments (`''.split('|') == ['']`). -/
def splitOnChar (sep : Char) (s : String) : List String :=
  (s.toList.foldr
    (fun c acc =>
      match acc with
      | [] => if c = sep then [[], []] else [[c]]
      | cur :: rest =>
        if c = sep then [] :: cur :: rest else (c :: cur) :: rest)
    [[]]).map (fun cs => String.mk cs)

/-- The parameter name between the first two double quotes of the error
text, embedding `(text := e['text'])[(start := (find := text.find)('"') +
1):find('"', start)]`. Faithful whenever the text contains at least two
quotes, which every server `toomanyvalues` message does (it always quotes
the parameter name). -/
def extractQuotedParam (text : String) : String :=
  match splitOnChar '"' text with
  | _ :: param :: _ => param
  | _ => ""

/-- Slicing loop `[param_values[i:i + limit] for i in range(0, len(param_values), limit)]`
for `limit ≥ 1`; the inner fuel equals the list length, which suffices. -/
def chunksOfAux (limit : Nat) : Nat → List α → List (List α)
  | _, [] => []
  | 0, _ => []
  | fuel + 1, xs => xs.take limit :: chunksOfAux limit fuel (xs.drop limit)

/-- Splitting a list into consecutive chunks of at most `limit` elements. -/
def chunksOf (limit : Nat) (xs : List α) : List (List α) :=
  chunksOfAux limit xs.length xs

/-- The continuation-merge step at the bottom of the `while` loop of
`post_and_continue`: on the first round (`prevContinue = none`) merge the
continuation object directly; afterwards first `del` every parameter whose
key was in the previous continuation object but is not in the current one,
then merge. The key set difference is traversed in key order of the
previous object; Python iterates it in unspecified set order, which yields
the same dict because deleting one key never affects another. -/
def updateContinueStep (data : Dict) (prevContinue : Option Dict)
    (cont : Dict) : Except Err Dict :=
  match prevContinue with
  | none => .ok (dictMerge data cont)
  | some prev =>
    match pyDelKeys data
        ((dictKeys prev).filter (fun k => !(dictHasKey cont k))) with
    | .error e => .error e
    | .ok data1 => .ok (dictMerge data1 cont)

/-- The `for i in range(0, len(param_values), limit)` recovery loop of
`post_and_continue`: for each chunk, set `data[param]` to the pipe-joined
chunk and run the full continuation procedure (`pac1`, the recursive
`self.post_and_continue(data)` call) on the in-place mutated parameter set,
concatenating the yielded sequences in chunk order. -/
def pacChunks (pac1 : List PostOutcome → Dict → Except Err PacOut)
    (param : String) :
    List (List String) → List PostOutcome → Dict → Except Err PacOut
  | [], script, data => .ok ⟨[], [], data, script⟩
  | chunk :: chunks, script, data =>
    let data1 := dictInsert data param (.str (String.intercalate "|" chunk))
    match pac1 script data1 with
    | .error e => .error e
    | .ok out =>
      match pacChunks pac1 param chunks out.script out.data with
      | .error e => .error e
      | .ok rest =>
        .ok ⟨out.yields ++ rest.yields, out.trace ++ rest.trace,
          rest.data, rest.script⟩

/-- The `while True` loop of `API.post_and_continue`. Each iteration posts
(consuming one script entry, recorded in the trace), yields the body on
success, and either stops (no `continue` object), merges the continuation
via `updateContinueStep`, or — on `TooManyValuesError` — extracts the
oversized parameter from the error text, splits its value on `'|'`, and
delegates to `pacChunks`. The chunk sub-calls re-enter through the
`rawcontinue` guard, inlining the body of `post_and_continue` (which cannot
be referenced before it is defined). -/
def pacLoop (fuel : Nat) (script : List PostOutcome) (data : Dict)
    (prevContinue : Option Dict) : Except Err PacOut :=
  match fuel with
  | 0 => .error .outOfFuel
  | fuel + 1 =>
    match script with
    | [] => .error .scriptEnd
    | outcome :: script =>
      match outcome with
      | .tooManyValues error =>
        match dictGet error "text" with
        | none => .error .keyError
        | some (.str text) =>
          let param := extractQuotedParam text
          match dictGet data param with
          | none => .error .keyError
          | some (.str value) =>
            let paramValues := splitOnChar '|' value
            match dictGet error "data" with
            | none => .error .keyError
            | some (.obj errData) =>
              match dictGet errData "limit" with
              | none => .error .keyError
              | some (.nat limit) =>
                if limit = 0 then .error .valueError
                else
                  match pacChunks
                    (fun s d =>
                      if dictHasKey d "rawcontinue" then
                        .error .notImplementedError
                      else pacLoop fuel s d none)
                    param (chunksOf limit paramValues) script data with
                  | .error e => .error e
                  | .ok out => .ok { out with trace := data :: out.trace }
              | some _ => .error .typeError
            | some _ => .error .typeError
          | some _ => .error .typeError
        | some _ => .error .typeError
      | .ok json =>
        match dictGet json "continue" with
        | none => .ok ⟨[json], [data], data, script⟩
        | some (.obj cont) =>
          match updateContinueStep data prevContinue cont with
          | .error e => .error e
          | .ok data1 =>
            match pacLoop fuel script data1 (some cont) with
            | .error e => .error e
            | .ok out =>
              .ok { out with
                    yields := json :: out.yields
                    trace := data :: out.trace }
        | some _ => .error .typeError

/-- Embeds `API.post_and_continue`: refuse `rawcontinue`, then run the loop with no
previous continuation. -/
def post_and_continue (fuel : Nat) (script : List PostOutcome)
    (data : Dict) : Except Err PacOut :=
  if dictHasKey data "rawcontinue" then .error .notImplementedError
  else pacLoop fuel script data none

/-- Embeds `API.query`: set `action=query` and continue-post. -/
def query (fuel : Nat) (script : List PostOutcome) (params : Dict) :
    Except Err PacOut :=
  post_and_continue fuel script (dictInsert params "action" (.str "query"))

/-- The per-round body of `API.query_list`: for each yielded body assert
`json['batchcomplete'] is True` (a missing key is a `KeyError`, a present
value other than the `True` singleton an `AssertionError`), then yield every
item of `json['query'][list]` in order. Returns the items yielded before
the first failure, paired with that failure if any — the generator yields
lazily, so items of rounds before a failing round are already delivered. -/
def query_list_rounds (listName : String) :
    List Dict → List Value × Option Err
  | [] => ([], none)
  | json :: rest =>
    match dictGet json "batchcomplete" with
    | none => ([], some .keyError)
    | some (.bool true) =>
      match dictGet json "query" with
      | none => ([], some .keyError)
      | some (.obj q) =>
        match dictGet q listName with
        | none => ([], some .keyError)
        | some (.list items) =>
          let (ys, e) := query_list_rounds listName rest
          (items ++ ys, e)
        | some _ => ([], some .typeError)
      | some _ => ([], some .typeError)
    | some _ => ([], some .assertionError)

/-- Embeds `API.query_list`: set `list=listName`, run the query, process rounds. -/
def query_list (fuel : Nat) (script : List PostOutcome) (listName : String)
    (params : Dict) : Except Err (List Value × Option Err) :=
  (query fuel script (dictInsert params "list" (.str listName))).map
    (fun r => query_list_rounds listName r.yields)

/-- Reads `query['pages']` in `formatversion=2` shape: a JSON array whose elements
are page objects; a non-object page would make `page.get` fail. -/
def asPageList : List Value → Option (List Dict)
  | [] => some []
  | .obj p :: rest => (asPageList rest).map (fun ps => p :: ps)
  | _ :: _ => none

/-- One pair of the `zip(pages, batch)` loop in the `batchcomplete` branch
of `API.query_prop`, returning the page object yielded for the pair:

* the new page has no `prop` value: yield the accumulated page;
* the accumulated page has no `prop` value: `setdefault` stores the new
  value (`bp is pp`), and the new page is yielded;
* both have one: `bp += pp` extends the accumulated sequence in place and
  the accumulated page is yielded.

`+=` is the in-place extension of the ordered-sequence property values the
batch-merge operates on (revision lists and the like, always JSON arrays);
a non-array property value is outside the prop batch-merge contract and is
mapped to `typeError`. -/
def mergeYieldPair (prop : String) (page batchPage : Dict) :
    Except Err Dict :=
  match dictGet page prop with
  | none => .ok batchPage
  | some pp =>
    match dictGet batchPage prop with
    | none => .ok page
    | some bp =>
      match bp, pp with
      | .list bl, .list pl =>
        .ok (dictInsert batchPage prop (.list (bl ++ pl)))
      | _, _ => .error .typeError

/-- One pair of the `zip(pages, batch)` loop in the open-batch branch of
`API.query_prop` (no `batchcomplete`): merge the new page's property value
into the accumulated page in place, yielding nothing. -/
def mergeBatchPair (prop : String) (page batchPage : Dict) :
    Except Err Dict :=
  match dictGet page prop with
  | none => .ok batchPage
  | some pp =>
    match dictGet batchPage prop with
    | none => .ok (dictInsert batchPage prop pp)
    | some bp =>
      match bp, pp with
      | .list bl, .list pl =>
        .ok (dictInsert batchPage prop (.list (bl ++ pl)))
      | _, _ => .error .typeError

/-- Loop `for page, batch_page in zip(pages, batch)` in the `batchcomplete`
branch: positional pairing, stopping at the shorter list; one page is
yielded per pair. -/
def mergeYieldZip (prop : String) :
    List Dict → List Dict → Except Err (List Dict)
  | _, [] => .ok []
  | [], _ :: _ => .ok []
  | page :: pages, batchPage :: batch =>
    match mergeYieldPair prop page batchPage with
    | .error e => .error e
    | .ok y =>
      match mergeYieldZip prop pages batch with
      | .error e => .error e
      | .ok ys => .ok (y :: ys)

/-- Loop `for page, batch_page in zip(pages, batch)` in the open-batch branch:
positional pairing, stopping at the shorter list. The accumulator list is
mutated element-wise in place, so it keeps its length: accumulated pages
beyond the new round's length stay untouched. -/
def updateZip (prop : String) :
    List Dict → List Dict → Except Err (List Dict)
  | _, [] => .ok []
  | [], bp :: batch => .ok (bp :: batch)
  | page :: pages, batchPage :: batch =>
    match mergeBatchPair prop page batchPage with
    | .error e => .error e
    | .ok bp1 =>
      match updateZip prop pages batch with
      | .error e => .error e
      | .ok rest => .ok (bp1 :: rest)

/-- The `for json in self.query(params)` loop of `API.query_prop`, over the
already-produced round bodies, carrying the batch accumulator:

* a body without `query` is skipped (`continue`);
* `'batchcomplete' in json` (key presence, whatever the value): with no
  open batch every page is yielded directly, otherwise pages are zip-merged
  with the accumulator, one page yielded per pair, and the accumulator is
  cleared;
* otherwise the pages open a batch (`batch = pages`) or are zip-merged into
  the open one without yielding.

A leftover open batch when the rounds end is dropped, as the generator
simply ends. -/
def query_prop_rounds (prop : String) :
    List Dict → Option (List Dict) → Except Err (List Dict)
  | [], _ => .ok []
  | json :: rest, batch =>
    match dictGet json "query" with
    | none => query_prop_rounds prop rest batch
    | some (.obj q) =>
      match dictGet q "pages" with
      | none => .error .keyError
      | some (.list pagesV) =>
        match asPageList pagesV with
        | none => .error .typeError
        | some pages =>
          if dictHasKey json "batchcomplete" then
            match batch with
            | none =>
              match query_prop_rounds prop rest none with
              | .error e => .error e
              | .ok ys => .ok (pages ++ ys)
            | some b =>
              match mergeYieldZip prop pages b with
              | .error e => .error e
              | .ok ys =>
                match query_prop_rounds prop rest none with
                | .error e => .error e
                | .ok rest1 => .ok (ys ++ rest1)
          else
            match batch with
            | none => query_prop_rounds prop rest (some pages)
            | some b =>
              match updateZip prop pages b with
              | .error e => .error e
              | .ok b1 => query_prop_rounds prop rest (some b1)
      | some _ => .error .typeError
    | some _ => .error .typeError

/-- Embeds `API.query_prop`: set `prop=propName`, run the query, process the
yielded bodies with an initially empty batch accumulator. -/
def query_prop (fuel : Nat) (script : List PostOutcome) (prop : String)
    (params : Dict) : Except Err (List Dict) :=
  match query fuel script (dictInsert params "prop" (.str prop)) with
  | .error e => .error e
  | .ok r => query_prop_rounds prop r.yields none

/-- A value of the Action-to-Token Table: `(token parameter name, token
type)`; the default for unknown actions is `(None, None)`. -/
abbrev TokenPair := Option String × Option String

/-- The `defaultdict` holding the Action-to-Token Table: its stored entries
in insertion order. -/
structure ActionTokenTable where
  entries : List (String × TokenPair)

/-- Key membership in a stored entry list. -/
def entriesHas : List (String × TokenPair) → String → Bool
  | [], _ => false
  | kv :: l, k => kv.1 == k || entriesHas l k

/-- The stored pair for a key, or the `(None, None)` default on a miss. -/
def entriesView : List (String × TokenPair) → String → TokenPair
  | [], _ => (none, none)
  | kv :: l, k => if kv.1 == k then kv.2 else entriesView l k

/-- Subscript `ACTION_PARAM_TOKEN[action]`: a `defaultdict` access. On a hit the
stored pair is returned and the table is untouched; on a miss
`__missing__` runs the default factory, *stores* `(None, None)` under the
missing key, and returns it — the table grows. -/
def ddGetitem (t : ActionTokenTable) (action : String) :
    TokenPair × ActionTokenTable :=
  if entriesHas t.entries action then (entriesView t.entries action, t)
  else ((none, none), ⟨t.entries ++ [(action, (none, none))]⟩)

/-- The value a subscript of the table observes for a key, without the
storage side effect: the stored pair, or the `(None, None)` default. -/
def ddView (t : ActionTokenTable) (action : String) : TokenPair :=
  entriesView t.entries action

/-- Membership `k in t` on the stored entries of the table. -/
def tableHasKey (t : ActionTokenTable) (k : String) : Bool :=
  entriesHas t.entries k

/-- A sequence of `defaultdict` subscripts, each threading the (possibly
grown) table into the next. -/
def ddLookups (t : ActionTokenTable) (actions : List String) :
    ActionTokenTable :=
  actions.foldl (fun a k => (ddGetitem a k).2) t

/-- The module-level `ACTION_PARAM_TOKEN` table of `_api.py`, transcribed
entry for entry in source order. -/
def ACTION_PARAM_TOKEN : ActionTokenTable := ⟨[
  ("abusefilterunblockautopromote", (some "token", some "csrf")),
  ("abuselogprivatedetails", (some "token", some "csrf")),
  ("block", (some "token", some "csrf")),
  ("centralnoticecdncacheupdatebanner", (some "token", some "csrf")),
  ("changeauthenticationdata", (some "changeauthtoken", some "csrf")),
  ("changecontentmodel", (some "changeauthtoken", some "csrf")),
  ("clientlogin", (some "logintoken", some "login")),
  ("createaccount", (some "createtoken", some "createaccount")),
  ("cxdelete", (some "token", some "csrf")),
  ("cxsuggestionlist", (some "token", some "csrf")),
  ("cxtoken", (some "token", some "csrf")),
  ("delete", (some "token", some "csrf")),
  ("deleteglobalaccount", (some "token", some "deleteglobalaccount")),
  ("echomarkread", (some "token", some "csrf")),
  ("echomute", (some "token", some "csrf")),
  ("edit", (some "token", some "csrf")),
  ("editmassmessagelist", (some "token", some "csrf")),
  ("emailuser", (some "token", some "csrf")),
  ("filerevert", (some "token", some "csrf")),
  ("globalblock", (some "token", some "csrf")),
  ("globalpreferenceoverrides", (some "token", some "csrf")),
  ("globalpreferences", (some "token", some "csrf")),
  ("globaluserrights", (some "token", some "userrights")),
  ("import", (some "token", some "userrights")),
  ("linkaccount", (some "linktoken", some "csrf")),
  ("login", (some "lgtoken", some "login")),
  ("logout", (some "token", some "csrf")),
  ("managetags", (some "token", some "csrf")),
  ("move", (some "token", some "csrf")),
  ("pagetriageaction", (some "token", some "csrf")),
  ("pagetriagetagcopyvio", (some "token", some "csrf")),
  ("pagetriagetagging", (some "token", some "csrf")),
  ("patrol", (some "token", some "patrol")),
  ("protect", (some "token", some "csrf")),
  ("removeauthenticationdata", (some "token", some "csrf")),
  ("resetpassword", (some "token", some "csrf")),
  ("review", (some "token", some "csrf")),
  ("reviewactivity", (some "token", some "csrf")),
  ("revisiondelete", (some "token", some "csrf")),
  ("rollback", (some "token", some "rollback")),
  ("setglobalaccountstatus", (some "token", some "setglobalaccountstatus")),
  ("setnotificationtimestamp", (some "token", some "csrf")),
  ("setpagelanguage", (some "token", some "csrf")),
  ("stabilize", (some "token", some "csrf")),
  ("strikevote", (some "token", some "csrf")),
  ("tag", (some "token", some "csrf")),
  ("thank", (some "token", some "csrf")),
  ("transcodereset", (some "token", some "csrf")),
  ("unblock", (some "token", some "csrf")),
  ("undelete", (some "token", some "csrf")),
  ("unlinkaccount", (some "token", some "csrf")),
  ("upload", (some "token", some "csrf")),
  ("userrights", (some "token", some "userrights")),
  ("watch", (some "token", some "watch")),
  ("wikilove", (some "token", some "csrf")),
  ("cxpublish", (some "token", some "csrf")),
  ("cxsave", (some "token", some "csrf")),
  ("oathvalidate", (some "token", some "csrf")),
  ("readinglists", (some "token", some "csrf")),
  ("stashedit", (some "token", some "csrf")),
  ("ulssetlang", (some "token", some "csrf")),
  ("visualeditoredit", (some "token", some "csrf"))]⟩

/-- The Action-to-Token Table access performed by `API._prepare_action`:
read `data.get('action')` and, when an action is present, subscript
`ACTION_PARAM_TOKEN[action]`. Form-encoded request parameters are strings,
so only string actions are modeled; without an action the method returns
before touching the table. -/
def prepare_action_table (data : Dict) (t : ActionTokenTable) :
    ActionTokenTable :=
  match dictGet data "action" with
  | some (.str action) => (ddGetitem t action).2
  | _ => t

/-- The `TokenManager` cache: token type name to cached token string. -/
abbrev Tokens := List (String × String)

/-- Deletion `del self.tokens[token_type]`: `dict.__delitem__` raises `KeyError`
when the key is absent (`__missing__` only serves `__getitem__`). -/
def tokens_del (tokens : Tokens) (tokenType : String) : Except Err Tokens :=
  if tokens.any (fun kv => kv.1 == tokenType) then
    .ok (tokens.filter (fun kv => kv.1 != tokenType))
  else .error .keyError

/-- Subscript `self.tokens[token_type]` with `TokenManager.__missing__`: return the
cached string on a hit; on a miss fetch a fresh token — the `query_meta`
fetch is an oracle supplying successive token strings — store it, and
return it. -/
def tokens_get (tokens : Tokens) (fetch : List String) (tokenType : String) :
    Except Err (String × Tokens × List String) :=
  match tokens.find? (fun kv => kv.1 == tokenType) with
  | some kv => .ok (kv.2, tokens, fetch)
  | none =>
    match fetch with
    | [] => .error .scriptEnd
    | v :: rest => .ok (v, tokens ++ [(tokenType, v)], rest)

/-- Embeds `API._handle_badtoken_error`: look the failing module up in the
Action-to-Token Table (a `defaultdict` subscript, which may itself store a
default entry) and `del self.tokens[token_type]`. A module with no table
entry gives `token_type = None`, which is never a cache key, so the `del`
raises `KeyError`. -/
def handle_badtoken (t : ActionTokenTable) (tokens : Tokens)
    (module : String) : Except Err (ActionTokenTable × Tokens) :=
  match ddGetitem t module with
  | ((_, none), _) => .error .keyError
  | ((_, some tokenType), t1) =>
    (tokens_del tokens tokenType).map (fun tk => (t1, tk))

/-- Oracles consumed by `API.login`: token strings fetched on
`TokenManager` cache misses, and decoded bodies of `action=login` POSTs. -/
structure LoginWorld where
  tokenScript : List String
  postScript : List Dict

/-- The session state `login` touches: the token cache and `self._user`. -/
structure LoginState where
  tokens : Tokens
  user : Option Value

/-- Instrumented result of `API.login`: the returned `login` object, the
state and oracles after, the number of `action=login` POSTs made, and the
`lgtoken` sent with each POST in order. -/
structure LoginOut where
  login : Dict
  state : LoginState
  world : LoginWorld
  postsMade : Nat
  tokensSent : List String

/-- Embeds `API.login` with explicit credentials (the config-file path of
`load_lgname_lgpass` is out of scope): merge
`{action, lgname, lgpassword, lgtoken: self.tokens['login']}` into the
parameters, POST, and inspect `json['login']['result']`. `Success` clears
the token cache and records the authenticated user; `WrongToken` deletes
the cached login token and recurses on the merged parameters — so the next
round fetches a fresh token — with no retry bound; any other result raises
`LoginError` carrying the full response. -/
def login (fuel : Nat) (world : LoginWorld) (st : LoginState)
    (lgname lgpassword : String) (params : Dict) : Except Err LoginOut :=
  match fuel with
  | 0 => .error .outOfFuel
  | fuel + 1 =>
    match tokens_get st.tokens world.tokenScript "login" with
    | .error e => .error e
    | .ok (lgtoken, tokens1, fetch1) =>
      let params1 := dictMerge params
        [("action", .str "login"), ("lgname", .str lgname),
         ("lgpassword", .str lgpassword), ("lgtoken", .str lgtoken)]
      match world.postScript with
      | [] => .error .scriptEnd
      | json :: posts1 =>
        match dictGet json "login" with
        | none => .error .keyError
        | some (.obj lg) =>
          match dictGet lg "result" with
          | none => .error .keyError
          | some (.str "Success") =>
            match dictGet lg "lgusername" with
            | none => .error .keyError
            | some u => .ok ⟨lg, ⟨[], some u⟩, ⟨fetch1, posts1⟩, 1, [lgtoken]⟩
          | some (.str "WrongToken") =>
            match tokens_del tokens1 "login" with
            | .error e => .error e
            | .ok tokens2 =>
              match login fuel ⟨fetch1, posts1⟩ ⟨tokens2, st.user⟩
                  lgname lgpassword params1 with
              | .error e => .error e
              | .ok out =>
                .ok { out with
                      postsMade := out.postsMade + 1
                      tokensSent := lgtoken :: out.tokensSent }
          | some _ => .error (.loginError json)
        | some _ => .error .typeError

/-- A round body that a list query accepts: `batchcomplete` is the boolean
`True` and `json['query'][listName]` is the round's item list. -/
def goodListRound (listName : String) (json : Dict)
    (items : List Value) : Prop :=
  dictGet json "batchcomplete" = some (.bool true) ∧
  ∃ q, dictGet json "query" = some (.obj q) ∧
    dictGet q listName = some (.list items)

/-- A `WrongToken` login response body. -/
def loginWrongTokenResp : Dict :=
  [("login", .obj [("result", .str "WrongToken")])]

/-- A `Success` login response body naming user `u`. -/
def loginSuccessResp (u : String) : Dict :=
  [("login", .obj [("result", .str "Success"), ("lgusername", .str u)])]

/-! ### Association-list lemmas -/

theorem dictGet_dictInsert_ne (d : Dict) (j k : String) (v : Value)
    (h : ¬ j = k) : dictGet (dictInsert d j v) k = dictGet d k := by
  induction d with
  | nil => simp [dictInsert, dictGet, h]
  | cons kv d ih =>
    by_cases hj : kv.1 = j
    · simp [dictInsert, dictGet, hj, h, Ne.symm h]
    · simp [dictInsert, dictGet, hj, ih]

theorem dictGet_dictErase_self (d : Dict) (k : String) :
    dictGet (dictErase d k) k = none := by
  induction d with
  | nil => simp [dictErase, dictGet]
  | cons kv d ih =>
    by_cases hk : kv.1 = k
    · simp [dictErase, hk, ih]
    · simp [dictErase, dictGet, hk, ih]

theorem dictGet_dictErase_none (d : Dict) (j k : String)
    (h : dictGet d k = none) : dictGet (dictErase d j) k = none := by
  induction d with
  | nil => simp [dictErase, dictGet]
  | cons kv d ih =>
    by_cases hk : kv.1 = k
    · simp [dictGet, hk] at h
    · simp [dictGet, hk] at h
      by_cases hj : kv.1 = j
      · simp [dictErase, hj]
        exact ih h
      · simp [dictErase, dictGet, hj, hk]
        exact ih h

theorem dictGet_dictMerge_not_has (d e : Dict) (k : String)
    (h : dictHasKey e k = false) :
    dictGet (dictMerge d e) k = dictGet d k := by
  induction e generalizing d with
  | nil => simp [dictMerge]
  | cons kv e ih =>
    simp [dictHasKey] at h
    have step : dictMerge d (kv :: e) = dictMerge (dictInsert d kv.1 kv.2) e := rfl
    rw [step, ih _ h.2, dictGet_dictInsert_ne _ _ _ _ h.1]

theorem pyDel_ok_shape (d d1 : Dict) (k : String)
    (h : pyDel d k = .ok d1) : d1 = dictErase d k := by
  unfold pyDel at h
  by_cases hk : dictHasKey d k
  · simp [hk] at h
    exact h.symm
  · simp [hk] at h

theorem pyDelKeys_ok_none (ks : List String) (d d1 : Dict) (k : String)
    (hdel : pyDelKeys d ks = .ok d1) (h : dictGet d k = none) :
    dictGet d1 k = none := by
  induction ks generalizing d with
  | nil =>
    simp [pyDelKeys] at hdel
    rw [← hdel]
    exact h
  | cons j ks ih =>
    match hstep : pyDel d j with
    | .error e => simp [pyDelKeys, hstep] at hdel
    | .ok d2 =>
      simp only [pyDelKeys, hstep] at hdel
      have h2 := pyDel_ok_shape d d2 j hstep
      exact ih d2 hdel (h2 ▸ dictGet_dictErase_none d j k h)

theorem pyDelKeys_ok_mem (ks : List String) (d d1 : Dict) (k : String)
    (hdel : pyDelKeys d ks = .ok d1) (h : k ∈ ks) :
    dictGet d1 k = none := by
  induction ks generalizing d with
  | nil => cases h
  | cons j ks ih =>
    match hstep : pyDel d j with
    | .error e => simp [pyDelKeys, hstep] at hdel
    | .ok d2 =>
      simp only [pyDelKeys, hstep] at hdel
      rcases List.mem_cons.mp h with hk | hk
      · subst hk
        have h2 := pyDel_ok_shape d d2 k hstep
        exact pyDelKeys_ok_none ks d2 d1 k hdel
          (h2 ▸ dictGet_dictErase_self d k)
      · exact ih d2 hdel hk

/-! ### Chunking lemmas -/

theorem chunksOfAux_join (limit : Nat) (hlim : 1 ≤ limit) :
    ∀ (fuel : Nat) (xs : List α), xs.length ≤ fuel →
      (chunksOfAux limit fuel xs).flatten = xs := by
  intro fuel
  induction fuel with
  | zero =>
    intro xs h
    rw [List.eq_nil_of_length_eq_zero (Nat.le_zero.mp h)]
    simp [chunksOfAux]
  | succ fuel ih =>
    intro xs h
    match xs with
    | [] => simp [chunksOfAux]
    | y :: ys =>
      have hdrop : ((y :: ys).drop limit).length ≤ fuel := by
        simp only [List.length_drop, List.length_cons]
        simp only [List.length_cons] at h
        omega
      simp only [chunksOfAux, List.flatten_cons, ih _ hdrop,
        List.take_append_drop]

theorem chunksOfAux_mem_length (limit : Nat) :
    ∀ (fuel : Nat) (xs c : List α), c ∈ chunksOfAux limit fuel xs →
      c.length ≤ limit := by
  intro fuel
  induction fuel with
  | zero =>
    intro xs c hc
    match xs with
    | [] => simp [chunksOfAux] at hc
    | y :: ys => simp [chunksOfAux] at hc
  | succ fuel ih =>
    intro xs c hc
    match xs with
    | [] => simp [chunksOfAux] at hc
    | y :: ys =>
      simp only [chunksOfAux, List.mem_cons] at hc
      rcases hc with hc | hc
      · subst hc
        simp [List.length_take]
      · exact ih _ _ hc

/-! ### Action-to-Token Table lemmas -/

theorem entriesView_of_not_has (l : List (String × TokenPair)) (k : String)
    (h : entriesHas l k = false) : entriesView l k = (none, none) := by
  induction l with
  | nil => rfl
  | cons kv l ih =>
    simp [entriesHas] at h
    simp [entriesView, h.1, ih h.2]

theorem entriesView_append_default (l : List (String × TokenPair))
    (j k : String) :
    entriesView (l ++ [(j, ((none, none) : TokenPair))]) k =
      entriesView l k := by
  induction l with
  | nil =>
    by_cases hjk : j = k <;> simp [entriesView, hjk]
  | cons kv l ih =>
    by_cases hk : kv.1 = k <;> simp [entriesView, hk, ih]

theorem ddGetitem_fst (t : ActionTokenTable) (k : String) :
    (ddGetitem t k).1 = ddView t k := by
  unfold ddGetitem ddView
  by_cases h : entriesHas t.entries k
  · simp [h]
  · simp only [Bool.not_eq_true] at h
    simp [h, entriesView_of_not_has _ _ h]

theorem ddView_ddGetitem (t : ActionTokenTable) (j k : String) :
    ddView (ddGetitem t j).2 k = ddView t k := by
  unfold ddGetitem ddView
  by_cases h : entriesHas t.entries j
  · simp [h]
  · simp only [Bool.not_eq_true] at h
    simp [h, entriesView_append_default]

theorem ddLookups_view (as : List String) (t : ActionTokenTable)
    (k : String) : ddView (ddLookups t as) k = ddView t k := by
  induction as generalizing t with
  | nil => rfl
  | cons a as ih =>
    have step : ddLookups t (a :: as) = ddLookups (ddGetitem t a).2 as := rfl
    rw [step, ih, ddView_ddGetitem]

/-! ### Query-facade lemmas -/

theorem query_list_rounds_append (listName : String)
    (pre : List Dict) (itemss : List (List Value)) (rest : List Dict)
    (h : List.Forall₂ (goodListRound listName) pre itemss) :
    query_list_rounds listName (pre ++ rest) =
      (itemss.flatten ++ (query_list_rounds listName rest).1,
       (query_list_rounds listName rest).2) := by
  induction h with
  | nil => simp
  | cons hgood hrest ih =>
    obtain ⟨h1, q, hq, hi⟩ := hgood
    simp [query_list_rounds, h1, hq, hi, ih]

theorem mergeYieldZip_length (prop : String) (pages b out : List Dict)
    (h : mergeYieldZip prop pages b = .ok out) :
    out.length = min pages.length b.length := by
  induction pages generalizing b out with
  | nil =>
    match b with
    | [] => simp [mergeYieldZip] at h; subst h; simp
    | bp :: bs => simp [mergeYieldZip] at h; subst h; simp
  | cons p ps ih =>
    match b with
    | [] => simp [mergeYieldZip] at h; subst h; simp
    | bp :: bs =>
      match hp : mergeYieldPair prop p bp with
      | .error e => simp [mergeYieldZip, hp] at h
      | .ok y =>
        match hz : mergeYieldZip prop ps bs with
        | .error e => simp [mergeYieldZip, hp, hz] at h
        | .ok ys =>
          simp only [mergeYieldZip, hp, hz, Except.ok.injEq] at h
          rw [← h]
          simp [ih bs ys hz, Nat.succ_min_succ]

theorem mergeYieldZip_get (prop : String) (pages b out : List Dict)
    (h : mergeYieldZip prop pages b = .ok out) (i : Nat)
    (page batchPage : Dict) (hp : pages[i]? = some page)
    (hb : b[i]? = some batchPage) :
    ∃ y, mergeYieldPair prop page batchPage = .ok y ∧ out[i]? = some y := by
  induction pages generalizing b out i with
  | nil => simp at hp
  | cons p ps ih =>
    match b with
    | [] => simp at hb
    | bp :: bs =>
      match hpair : mergeYieldPair prop p bp with
      | .error e => simp [mergeYieldZip, hpair] at h
      | .ok y =>
        match hz : mergeYieldZip prop ps bs with
        | .error e => simp [mergeYieldZip, hpair, hz] at h
        | .ok ys =>
          simp only [mergeYieldZip, hpair, hz, Except.ok.injEq] at h
          match i with
          | 0 =>
            simp at hp hb
            subst hp; subst hb
            exact ⟨y, hpair, by simp [← h]⟩
          | i + 1 =>
            simp at hp hb
            obtain ⟨y1, hy1, ho⟩ := ih bs ys hz i hp hb
            exact ⟨y1, hy1, by simp [← h, ho]⟩

theorem updateZip_get (prop : String) (pages b out : List Dict)
    (h : updateZip prop pages b = .ok out) (i : Nat)
    (page batchPage : Dict) (hp : pages[i]? = some page)
    (hb : b[i]? = some batchPage) :
    ∃ y, mergeBatchPair prop page batchPage = .ok y ∧ out[i]? = some y := by
  induction pages generalizing b out i with
  | nil => simp at hp
  | cons p ps ih =>
    match b with
    | [] => simp at hb
    | bp :: bs =>
      match hpair : mergeBatchPair prop p bp with
      | .error e => simp [updateZip, hpair] at h
      | .ok y =>
        match hz : updateZip prop ps bs with
        | .error e => simp [updateZip, hpair, hz] at h
        | .ok ys =>
          simp only [updateZip, hpair, hz, Except.ok.injEq] at h
          match i with
          | 0 =>
            simp at hp hb
            subst hp; subst hb
            exact ⟨y, hpair, by simp [← h]⟩
          | i + 1 =>
            simp at hp hb
            obtain ⟨y1, hy1, ho⟩ := ih bs ys hz i hp hb
            exact ⟨y1, hy1, by simp [← h, ho]⟩

theorem updateZip_length_unpaired (prop : String) (pages b out : List Dict)
    (h : updateZip prop pages b = .ok out) :
    out.length = b.length ∧
      ∀ i, pages.length ≤ i → out[i]? = b[i]? := by
  induction pages generalizing b out with
  | nil =>
    match b with
    | [] => simp [updateZip] at h; subst h; simp
    | bp :: bs => simp [updateZip] at h; subst h; simp
  | cons p ps ih =>
    match b with
    | [] =>
      simp [updateZip] at h
      subst h
      simp
    | bp :: bs =>
      match hpair : mergeBatchPair prop p bp with
      | .error e => simp [updateZip, hpair] at h
      | .ok y =>
        match hz : updateZip prop ps bs with
        | .error e => simp [updateZip, hpair, hz] at h
        | .ok ys =>
          simp only [updateZip, hpair, hz, Except.ok.injEq] at h
          obtain ⟨hlen, hget⟩ := ih bs ys hz
          constructor
          · rw [← h]; simp [hlen]
          · intro i hi
            match i with
            | 0 => simp at hi
            | i + 1 =>
              simp only [List.length_cons, Nat.add_le_add_iff_right] at hi
              rw [← h]
              simp [hget i hi]

/-! ### Login-run lemmas -/

/-- A login run against a server answering `WrongToken` to the first `n`
attempts and `Success` to attempt `n + 1` makes `n + 1` POSTs in all and
succeeds, whatever `n` is: the retry recursion has no bound. -/
theorem login_wrongtoken_run (u lgname lgpassword : String) :
    ∀ (n : Nat) (params : Dict),
      login (n + 2)
        ⟨List.replicate (n + 1) "T",
         List.replicate n loginWrongTokenResp ++ [loginSuccessResp u]⟩
        ⟨[], none⟩ lgname lgpassword params =
      .ok ⟨[("result", .str "Success"), ("lgusername", .str u)],
           ⟨[], some (.str u)⟩, ⟨[], []⟩, n + 1,
           List.replicate (n + 1) "T"⟩ := by
  intro n
  induction n with
  | zero => intro params; rfl
  | succ n ih =>
    intro params
    have hts : List.replicate (n + 1 + 1) "T" =
        "T" :: List.replicate (n + 1) "T" := List.replicate_succ "T" (n + 1)
    have hps : List.replicate (n + 1) loginWrongTokenResp ++
          [loginSuccessResp u] =
        loginWrongTokenResp ::
          (List.replicate n loginWrongTokenResp ++ [loginSuccessResp u]) := by
      simp [List.replicate_succ]
    rw [hts, hps]
    rw [show login (n + 1 + 2)
        ⟨"T" :: List.replicate (n + 1) "T",
         loginWrongTokenResp ::
           (List.replicate n loginWrongTokenResp ++ [loginSuccessResp u])⟩
        ⟨[], none⟩ lgname lgpassword params =
      (match login (n + 2)
          ⟨List.replicate (n + 1) "T",
           List.replicate n loginWrongTokenResp ++ [loginSuccessResp u]⟩
          ⟨[], none⟩ lgname lgpassword
          (dictMerge params
            [("action", Value.str "login"), ("lgname", Value.str lgname),
             ("lgpassword", Value.str lgpassword),
             ("lgtoken", Value.str "T")]) with
       | .error e => .error e
       | .ok out =>
         .ok { out with
               postsMade := out.postsMade + 1
               tokensSent := "T" :: out.tokensSent }) from rfl]
    rw [ih]

/-! ### Claim theorems -/

/-- C1: in `post_and_continue`, the first continuation object is merged
into the parameter set with no deletions; on every later round each key
that was in the previous continuation object but is absent from the
current one is deleted before the current object is merged, so it is gone
from the resulting parameter set. In the concrete run with round-1
continuation `{a:1, b:2}` and round-2 continuation `{a:3}`, the parameter
set posted on round 3 holds `a = 3` and no `b`. -/
theorem c1_continuation_key_replacement :
    (∀ data cont, updateContinueStep data none cont =
      .ok (dictMerge data cont)) ∧
    (∀ data prev cont data1 k,
      updateContinueStep data (some prev) cont = .ok data1 →
      k ∈ dictKeys prev → dictHasKey cont k = false →
      dictGet data1 k = none) ∧
    (post_and_continue 9
        [.ok [("continue", .obj [("a", .nat 1), ("b", .nat 2)])],
         .ok [("continue", .obj [("a", .nat 3)])],
         .ok []]
        [("q", .str "x")]).map
      (fun r => r.trace.map (fun d => (dictGet d "a", dictGet d "b"))) =
    .ok [(none, none), (some (.nat 1), some (.nat 2)),
      (some (.nat 3), none)] := by
  refine ⟨fun data cont => rfl, ?_, rfl⟩
  intro data prev cont data1 k hstep hmem hcont
  simp only [updateContinueStep] at hstep
  match hdel : pyDelKeys data
      ((dictKeys prev).filter (fun k => !(dictHasKey cont k))) with
  | .error e => rw [hdel] at hstep; cases hstep
  | .ok d2 =>
    rw [hdel] at hstep
    simp only [Except.ok.injEq] at hstep
    have hk : dictGet d2 k = none := by
      refine pyDelKeys_ok_mem _ _ _ _ hdel ?_
      exact List.mem_filter.mpr ⟨hmem, by simp [hcont]⟩
    rw [← hstep, dictGet_dictMerge_not_has _ _ _ hcont, hk]

/-- Witness for C1: deleting the stale key `b` of the previous
continuation object in a concrete merge step. -/
theorem c1_witness :
    dictGet [("q", Value.str "x"), ("a", Value.nat 3)] "b" = none :=
  c1_continuation_key_replacement.2.1
    [("q", Value.str "x"), ("a", Value.nat 1), ("b", Value.nat 2)]
    [("a", Value.nat 1), ("b", Value.nat 2)]
    [("a", Value.nat 3)]
    [("q", Value.str "x"), ("a", Value.nat 3)] "b"
    rfl (by decide) rfl

/-- C2 counterexample: a round body without a `batchcomplete` key — the
shape the server sends for an incomplete batch — makes `query_list` fail
with `KeyError` from the `json['batchcomplete']` subscript, not with
`AssertionError` as the claim states: the `assert` never runs. -/
theorem c2_counterexample :
    query_list 9 [.ok [("query", .obj [("l", .list [.nat 1])])]] "l" [] =
      .ok ([], some .keyError) ∧
    Err.keyError ≠ Err.assertionError :=
  ⟨rfl, fun h => Err.noConfusion h⟩

/-- C2 (amended): a list query split over any number of rounds whose
bodies all carry `batchcomplete = True` yields exactly the concatenation
of the rounds' item lists in server order; a round whose `batchcomplete`
key is absent fails with `KeyError`, and one whose value is present but
not the `True` singleton fails with `AssertionError` — in both cases the
failing round's items are not yielded, while all earlier rounds' items
already were. -/
theorem c2_query_list_amended :
    (∀ fuel script listName params r itemss,
      query fuel script (dictInsert params "list" (.str listName)) = .ok r →
      List.Forall₂ (goodListRound listName) r.yields itemss →
      query_list fuel script listName params = .ok (itemss.flatten, none)) ∧
    (∀ listName pre itemss json rest,
      List.Forall₂ (goodListRound listName) pre itemss →
      dictGet json "batchcomplete" = none →
      query_list_rounds listName (pre ++ json :: rest) =
        (itemss.flatten, some .keyError)) ∧
    (∀ listName pre itemss json rest v,
      List.Forall₂ (goodListRound listName) pre itemss →
      dictGet json "batchcomplete" = some v →
      ¬ v = Value.bool true →
      query_list_rounds listName (pre ++ json :: rest) =
        (itemss.flatten, some .assertionError)) := by
  refine ⟨?_, ?_, ?_⟩
  · intro fuel script listName params r itemss hq hfa
    unfold query_list
    rw [hq]
    have h := query_list_rounds_append listName r.yields itemss [] hfa
    simp only [List.append_nil, query_list_rounds] at h
    simp [Except.map, h]
  · intro listName pre itemss json rest hfa hbc
    rw [query_list_rounds_append listName pre itemss _ hfa]
    simp [query_list_rounds, hbc]
  · intro listName pre itemss json rest v hfa hbc hv
    rw [query_list_rounds_append listName pre itemss _ hfa]
    match v with
    | .bool true => exact absurd rfl hv
    | .bool false => simp [query_list_rounds, hbc]
    | .str s => simp [query_list_rounds, hbc]
    | .nat n => simp [query_list_rounds, hbc]
    | .list xs => simp [query_list_rounds, hbc]
    | .obj o => simp [query_list_rounds, hbc]

/-- Witness for C2 (amended): a one-round list query with
`batchcomplete = True` yields exactly that round's items. -/
theorem c2_witness :
    query_list 9
      [.ok [("batchcomplete", Value.bool true),
            ("query", .obj [("l", .list [.nat 1])])]]
      "l" [] = .ok ([.nat 1], none) := by
  have h := c2_query_list_amended.1 9
    [.ok [("batchcomplete", Value.bool true),
          ("query", .obj [("l", .list [.nat 1])])]]
    "l" []
    (PacOut.mk
      [[("batchcomplete", Value.bool true),
        ("query", Value.obj [("l", Value.list [Value.nat 1])])]]
      [[("list", Value.str "l"), ("action", Value.str "query")]]
      [("list", Value.str "l"), ("action", Value.str "query")]
      [])
    [[Value.nat 1]] rfl
    (List.Forall₂.cons
      ⟨rfl, ⟨[("l", Value.list [Value.nat 1])], rfl, rfl⟩⟩
      List.Forall₂.nil)
  simpa using h

/-- C3: the `toomanyvalues` recovery of `post_and_continue` splits the
pipe-delimited value into chunks of at most the server-declared limit,
preserving the original order (the chunks concatenate back to the original
value list), and issues one recursive continuation call per chunk, yielding
the concatenation of their results in chunk order. In the concrete run with
limit `2` and value `"a|b|c|d|e"`, the parameter values posted are
`"a|b|c|d|e"` (the failing call) then `"a|b"`, `"c|d"`, `"e"` in order, and
the yields are the three sub-calls' bodies concatenated. -/
theorem c3_toomanyvalues_chunking :
    (∀ (limit : Nat) (xs : List String), 1 ≤ limit →
      (chunksOf limit xs).flatten = xs ∧
      ∀ c ∈ chunksOf limit xs, c.length ≤ limit) ∧
    (post_and_continue 9
        [.tooManyValues
          [("text", .str
            "Too many values supplied for parameter \"p\". The limit is 2."),
           ("data", .obj [("limit", .nat 2)])],
         .ok [("r", .nat 1)], .ok [("r", .nat 2)], .ok [("r", .nat 3)]]
        [("p", .str "a|b|c|d|e")]).map
      (fun r => (r.trace.map (fun d => dictGet d "p"), r.yields)) =
    .ok ([some (.str "a|b|c|d|e"), some (.str "a|b"), some (.str "c|d"),
          some (.str "e")],
         [[("r", .nat 1)], [("r", .nat 2)], [("r", .nat 3)]]) := by
  refine ⟨fun limit xs hlim => ⟨?_, ?_⟩, rfl⟩
  · exact chunksOfAux_join limit hlim xs.length xs le_rfl
  · exact fun c hc => chunksOfAux_mem_length limit xs.length xs c hc

/-- Witness for C3: chunking a five-element value list with limit 2. -/
theorem c3_witness :
    (chunksOf 2 ["a", "b", "c", "d", "e"]).flatten =
      ["a", "b", "c", "d", "e"] ∧
    ∀ c ∈ chunksOf 2 ["a", "b", "c", "d", "e"], c.length ≤ 2 :=
  c3_toomanyvalues_chunking.1 2 ["a", "b", "c", "d", "e"] (by decide)

/-- C4: in `query_prop`, a round without `batchcomplete` opening a batch
with a page whose property value is `[a]`, followed by a `batchcomplete`
round whose positionally corresponding page has property value `[b]`,
yields exactly one page for that identity, namely the accumulated page with
the property extended to `[a, b]` — old accumulated value first, new value
appended. -/
theorem c4_prop_batch_merge (prop : String) (p1 p2 : Dict) (a b : Value)
    (h1 : dictGet p1 prop = some (.list [a]))
    (h2 : dictGet p2 prop = some (.list [b])) :
    query_prop_rounds prop
      [[("query", .obj [("pages", .list [.obj p1])])],
       [("batchcomplete", .bool true),
        ("query", .obj [("pages", .list [.obj p2])])]]
      none =
    .ok [dictInsert p1 prop (.list [a, b])] := by
  have hpair : mergeYieldPair prop p2 p1 =
      .ok (dictInsert p1 prop (.list [a, b])) := by
    unfold mergeYieldPair
    rw [h2, h1]
    rfl
  have hmz : mergeYieldZip prop [p2] [p1] =
      .ok [dictInsert p1 prop (.list [a, b])] := by
    rw [show mergeYieldZip prop [p2] [p1] =
      (match mergeYieldPair prop p2 p1 with
       | .error e => .error e
       | .ok y =>
         match mergeYieldZip prop [] [] with
         | .error e => .error e
         | .ok ys => .ok (y :: ys)) from rfl, hpair]
    rfl
  rw [show query_prop_rounds prop
      [[("query", .obj [("pages", .list [.obj p1])])],
       [("batchcomplete", .bool true),
        ("query", .obj [("pages", .list [.obj p2])])]]
      none =
    (match mergeYieldZip prop [p2] [p1] with
     | .error e => .error e
     | .ok ys =>
       match query_prop_rounds prop [] none with
       | .error e => .error e
       | .ok rest1 => .ok (ys ++ rest1)) from rfl, hmz]
  rfl

/-- Witness for C4: the merge on concrete pages sharing `pageid = 1`. -/
theorem c4_witness :
    query_prop_rounds "p"
      [[("query", .obj [("pages", .list
          [.obj [("pageid", .nat 1), ("p", .list [.str "a"])]])])],
       [("batchcomplete", .bool true),
        ("query", .obj [("pages", .list
          [.obj [("pageid", .nat 1), ("p", .list [.str "b"])]])])]]
      none =
    .ok [dictInsert [("pageid", Value.nat 1), ("p", Value.list [Value.str "a"])]
          "p" (.list [.str "a", .str "b"])] :=
  c4_prop_batch_merge "p"
    [("pageid", Value.nat 1), ("p", Value.list [Value.str "a"])]
    [("pageid", Value.nat 1), ("p", Value.list [Value.str "b"])]
    (Value.str "a") (Value.str "b") rfl rfl

/-- C5 counterexample: two rounds containing the same two pages, with
stable `pageid` identifiers `1` and `2`, but in swapped order in the
`batchcomplete` round. Identifier correlation would merge `[a2]` onto page
1 giving `[a1, a2]`; the code zips positionally and merges the id-2 page's
value onto the id-1 accumulated page, yielding `[a1, b2]` for page 1 — the
identifiers are never consulted. -/
theorem c5_counterexample :
    query_prop_rounds "p"
      [[("query", .obj [("pages", .list
          [.obj [("pageid", .nat 1), ("p", .list [.str "a1"])],
           .obj [("pageid", .nat 2), ("p", .list [.str "b1"])]])])],
       [("batchcomplete", .bool true), ("query", .obj [("pages", .list
          [.obj [("pageid", .nat 2), ("p", .list [.str "b2"])],
           .obj [("pageid", .nat 1), ("p", .list [.str "a2"])]])])]]
      none =
    .ok [[("pageid", .nat 1), ("p", .list [.str "a1", .str "b2"])],
         [("pageid", .nat 2), ("p", .list [.str "b1", .str "a2"])]] ∧
    ¬ (Value.list [Value.str "a1", Value.str "b2"] =
       Value.list [Value.str "a1", Value.str "a2"]) := by
  refine ⟨rfl, ?_⟩
  intro h
  simp at h

/-- C5 (amended): page correlation in the `query_prop` batch merge is
purely positional — `zip(pages, batch)` pairs the i-th new page with the
i-th accumulated page in both the `batchcomplete` merge-and-yield loop and
the open-batch merge loop, regardless of any page identifier. -/
theorem c5_positional_correlation :
    (∀ (prop : String) (pages b out : List Dict) (i : Nat)
        (page batchPage : Dict),
      mergeYieldZip prop pages b = .ok out →
      pages[i]? = some page → b[i]? = some batchPage →
      ∃ y, mergeYieldPair prop page batchPage = .ok y ∧
        out[i]? = some y) ∧
    (∀ (prop : String) (pages b out : List Dict) (i : Nat)
        (page batchPage : Dict),
      updateZip prop pages b = .ok out →
      pages[i]? = some page → b[i]? = some batchPage →
      ∃ y, mergeBatchPair prop page batchPage = .ok y ∧
        out[i]? = some y) :=
  ⟨fun prop pages b out i page batchPage h hp hb =>
      mergeYieldZip_get prop pages b out h i page batchPage hp hb,
   fun prop pages b out i page batchPage h hp hb =>
      updateZip_get prop pages b out h i page batchPage hp hb⟩

/-- Witness for C5 (amended): position 0 of a concrete one-page merge. -/
theorem c5_witness :
    ∃ y, mergeYieldPair "p"
        [("pageid", Value.nat 2), ("p", Value.list [Value.str "b2"])]
        [("pageid", Value.nat 1), ("p", Value.list [Value.str "a1"])] =
        .ok y ∧
      ([[("pageid", Value.nat 1),
         ("p", Value.list [Value.str "a1", Value.str "b2"])]] :
        List Dict)[0]? = some y :=
  c5_positional_correlation.1 "p"
    [[("pageid", Value.nat 2), ("p", Value.list [Value.str "b2"])]]
    [[("pageid", Value.nat 1), ("p", Value.list [Value.str "a1"])]]
    [[("pageid", Value.nat 1),
      ("p", Value.list [Value.str "a1", Value.str "b2"])]]
    0
    [("pageid", Value.nat 2), ("p", Value.list [Value.str "b2"])]
    [("pageid", Value.nat 1), ("p", Value.list [Value.str "a1"])]
    rfl rfl rfl

/-- C6 counterexample: a server that answers the first two login POSTs with
`WrongToken` and the third with `Success`. The claim allows at most one
automatic retry per login call (at most two POSTs), but the call makes
three POSTs — one retry per `WrongToken`, with no bound — and succeeds. -/
theorem c6_counterexample :
    (login 7 ⟨["T1", "T2", "T3"],
        [loginWrongTokenResp, loginWrongTokenResp, loginSuccessResp "U"]⟩
      ⟨[], none⟩ "n" "p" []).map (fun o => o.postsMade) = .ok 3 ∧
    2 < 3 := ⟨rfl, by decide⟩

/-- C6 (amended): a `WrongToken` result makes `login` delete the cached
login token and retry with a freshly fetched one, repeating as long as the
server keeps answering `WrongToken` — `n` wrong-token rounds cost `n + 1`
POSTs, with no retry bound — and a retry that reports `Success` completes
the login, clearing the token cache and recording the user. In the
concrete two-POST run the retry sends the freshly fetched token `T2`, not
the invalidated `T1`. Any result other than `Success` or `WrongToken`
raises `LoginError` carrying the full response body. -/
theorem c6_login_retry_amended :
    (∀ (u lgname lgpassword : String) (n : Nat) (params : Dict),
      login (n + 2)
        ⟨List.replicate (n + 1) "T",
         List.replicate n loginWrongTokenResp ++ [loginSuccessResp u]⟩
        ⟨[], none⟩ lgname lgpassword params =
      .ok ⟨[("result", .str "Success"), ("lgusername", .str u)],
           ⟨[], some (.str u)⟩, ⟨[], []⟩, n + 1,
           List.replicate (n + 1) "T"⟩) ∧
    ((login 5 ⟨["T1", "T2"], [loginWrongTokenResp, loginSuccessResp "U"]⟩
        ⟨[], none⟩ "n" "p" []).map
      (fun o => (o.postsMade, o.tokensSent, o.state.user)) =
      .ok (2, ["T1", "T2"], some (.str "U"))) ∧
    (∀ (fuel : Nat) (t : String) (ts : List String) (json : Dict)
        (posts : List Dict) (lgname lgpassword : String) (params : Dict)
        (user : Option Value) (lg : List (String × Value)) (s : String),
      dictGet json "login" = some (.obj lg) →
      dictGet lg "result" = some (.str s) →
      ¬ s = "Success" → ¬ s = "WrongToken" →
      login (fuel + 1) ⟨t :: ts, json :: posts⟩ ⟨[], user⟩
        lgname lgpassword params = .error (.loginError json)) := by
  refine ⟨login_wrongtoken_run, rfl, ?_⟩
  intro fuel t ts json posts lgname lgpassword params user lg s h1 h2 h3 h4
  simp only [login, tokens_get, List.find?, h1, h2]
  simp [h3, h4]

/-- Witness for C6 (amended): a login result that is neither `Success` nor
`WrongToken` raises `LoginError` with the response attached. -/
theorem c6_witness :
    login 1 ⟨["T"], [[("login", Value.obj [("result", Value.str "Odd")])]]⟩
      ⟨[], none⟩ "n" "p" [] =
    .error (.loginError [("login", Value.obj [("result", Value.str "Odd")])]) :=
  c6_login_retry_amended.2.2 0 "T" [] 
    [("login", Value.obj [("result", Value.str "Odd")])] [] "n" "p" []
    none [("result", Value.str "Odd")] "Odd"
    rfl rfl (by decide) (by decide)

/-- C7 counterexample: the badtoken handler for module `patrol` with an
empty token cache. The claimed no-op does not happen: `del
self.tokens[token_type]` is `dict.__delitem__`, which raises `KeyError`
for an absent key (`TokenManager.__missing__` only serves reads). -/
theorem c7_counterexample :
    handle_badtoken ACTION_PARAM_TOKEN [] "patrol" = .error Err.keyError :=
  rfl

/-- C7 (amended): invalidation as performed by the badtoken handler
removes exactly the failing module's token-type entry when it is cached,
and raises `KeyError` when it is absent; the handler is the token-type
table lookup followed by that strict `del`. -/
theorem c7_invalidate_amended :
    (∀ (tokens : Tokens) (tokenType : String),
      tokens.any (fun kv => kv.1 == tokenType) = true →
      tokens_del tokens tokenType =
        .ok (tokens.filter (fun kv => kv.1 != tokenType))) ∧
    (∀ (tokens : Tokens) (tokenType : String),
      tokens.any (fun kv => kv.1 == tokenType) = false →
      tokens_del tokens tokenType = .error .keyError) ∧
    (∀ (t : ActionTokenTable) (tokens : Tokens) (module : String)
        (param : Option String) (tokenType : String),
      (ddGetitem t module).1 = (param, some tokenType) →
      handle_badtoken t tokens module =
        (tokens_del tokens tokenType).map
          (fun tk => ((ddGetitem t module).2, tk))) := by
  refine ⟨?_, ?_, ?_⟩
  · intro tokens tokenType h
    simp [tokens_del, h]
  · intro tokens tokenType h
    simp [tokens_del, h]
  · intro t tokens module param tokenType h
    unfold handle_badtoken
    match hg : ddGetitem t module with
    | ((p, none), t1) =>
      rw [hg] at h
      simp at h
    | ((p, some tt1), t1) =>
      rw [hg] at h
      simp only [Prod.mk.injEq, Option.some.injEq] at h
      rw [h.2]

/-- Witness for C7 (amended): invalidating a cached `patrol` token through
the badtoken handler for module `patrol`. -/
theorem c7_witness :
    handle_badtoken ACTION_PARAM_TOKEN [("patrol", "T"), ("csrf", "C")]
        "patrol" =
      (tokens_del [("patrol", "T"), ("csrf", "C")] "patrol").map
        (fun tk => ((ddGetitem ACTION_PARAM_TOKEN "patrol").2, tk)) :=
  c7_invalidate_amended.2.2 ACTION_PARAM_TOKEN
    [("patrol", "T"), ("csrf", "C")] "patrol" (some "token") "patrol" rfl

/-- C8 counterexample: `ACTION_PARAM_TOKEN` is a `defaultdict`, and
`API._prepare_action` subscripts it with `data['action']`. The action
`query` — set by every call of the `query` facade — is not a listed
action, so the subscript *stores* the default `(None, None)` under the key
`query`: the table's contents change at runtime. -/
theorem c8_counterexample :
    tableHasKey ACTION_PARAM_TOKEN "query" = false ∧
    tableHasKey
      (prepare_action_table [("action", Value.str "query")]
        ACTION_PARAM_TOKEN) "query" = true :=
  ⟨rfl, rfl⟩

/-- C8 (amended): looking up an action that is not stored in
`ACTION_PARAM_TOKEN` returns `(None, None)`, and although a missing-key
subscript inserts that default entry — so the stored key set grows — the
mapping the client observes is invariant: after any sequence of
subscripts, every lookup still returns exactly what the initial static
table would return. -/
theorem c8_action_token_table_amended :
    (∀ action, tableHasKey ACTION_PARAM_TOKEN action = false →
      (ddGetitem ACTION_PARAM_TOKEN action).1 = (none, none)) ∧
    (∀ (t : ActionTokenTable) (actions : List String) (k : String),
      ddView (ddLookups t actions) k = ddView t k) ∧
    (∀ (t : ActionTokenTable) (k : String),
      (ddGetitem t k).1 = ddView t k) := by
  refine ⟨?_, fun t actions k => ddLookups_view actions t k, ddGetitem_fst⟩
  intro action h
  rw [ddGetitem_fst]
  exact entriesView_of_not_has _ _ h

/-- Witness for C8 (amended): the unknown action `query` observes the
`(None, None)` default. -/
theorem c8_witness :
    (ddGetitem ACTION_PARAM_TOKEN "query").1 =
      ((none : Option String), (none : Option String)) :=
  c8_action_token_table_amended.1 "query" rfl

/-- C9: a continuation round whose body has no `query` key is silently
skipped by `query_prop`: nothing is yielded for it and the batch
accumulator is untouched, whether or not the body carries
`batchcomplete` — the `continue` runs before the `batchcomplete` test. -/
theorem c9_no_query_skip (prop : String) (json : Dict)
    (rest : List Dict) (batch : Option (List Dict))
    (h : dictGet json "query" = none) :
    query_prop_rounds prop (json :: rest) batch =
      query_prop_rounds prop rest batch := by
  conv_lhs => rw [query_prop_rounds.eq_def]
  simp only [h]

/-- Witness for C9: a body carrying only `batchcomplete` is skipped. -/
theorem c9_witness :
    query_prop_rounds "p" [[("batchcomplete", Value.bool true)]] none =
      query_prop_rounds "p" [] none :=
  c9_no_query_skip "p" [("batchcomplete", Value.bool true)] [] none rfl

/-- C10 counterexample: an open batch of two pages meets a one-page
non-`batchcomplete` round. The claim says the unpaired accumulated page
(id 2) is dropped — neither merged, nor yielded, nor retained — but the
accumulator keeps it: the later `batchcomplete` round still merges onto it
and yields it with property `[b, b3]`. -/
theorem c10_counterexample :
    query_prop_rounds "p"
      [[("query", .obj [("pages", .list
          [.obj [("pageid", .nat 1), ("p", .list [.str "a"])],
           .obj [("pageid", .nat 2), ("p", .list [.str "b"])]])])],
       [("query", .obj [("pages", .list
          [.obj [("pageid", .nat 1), ("p", .list [.str "a2"])]])])],
       [("batchcomplete", .bool true), ("query", .obj [("pages", .list
          [.obj [("pageid", .nat 1), ("p", .list [.str "a3"])],
           .obj [("pageid", .nat 2), ("p", .list [.str "b3"])]])])]]
      none =
    .ok [[("pageid", .nat 1),
          ("p", .list [.str "a", .str "a2", .str "a3"])],
         [("pageid", .nat 2), ("p", .list [.str "b", .str "b3"])]] := rfl

/-- C10 (amended): zip pairing stops at the shorter sequence. In the
`batchcomplete` merge round exactly `min` pages are yielded and the
unpaired remainder on either side is dropped (the accumulator is cleared
afterwards); in a non-`batchcomplete` merge round unpaired new-round pages
are dropped, but the accumulator keeps its length and every accumulated
page beyond the new round's length is retained untouched for later
rounds. -/
theorem c10_zip_truncation_amended :
    (∀ (prop : String) (pages b out : List Dict),
      mergeYieldZip prop pages b = .ok out →
      out.length = min pages.length b.length) ∧
    (∀ (prop : String) (pages b out : List Dict),
      updateZip prop pages b = .ok out →
      out.length = b.length ∧
        ∀ i, pages.length ≤ i → out[i]? = b[i]?) :=
  ⟨mergeYieldZip_length,
   fun prop pages b out h => updateZip_length_unpaired prop pages b out h⟩

/-- Witness for C10 (amended): a one-page round against an empty
accumulator yields `min 1 0 = 0` pages. -/
theorem c10_witness :
    ([] : List Dict).length =
      min ([[("pageid", Value.nat 1)]] : List Dict).length
        ([] : List Dict).length :=
  c10_zip_truncation_amended.1 "p" [[("pageid", Value.nat 1)]] [] [] rfl
